import Mathlib

/- Shallow embedding of the NexusMusicBot sources:
   `src/platforms/_youtube.py` (the `YouTubeData` backend) and
   `src/modules/funcs.py` (the playback command handlers).

   Conventions of the embedding:
   * Python strings are Lean `String`s; string primitives (`str.split`,
     `in`, `int(...)`, `str.lower`, prefix tests) are re-implemented below as
     structurally recursive functions over `List Char` so that all proofs
     evaluate in the kernel.  They model CPython's behaviour on ASCII input
     (the regexes in `_youtube.py` are ASCII-literal, so this is faithful for
     every input the claims are about).
   * An uncaught Python exception is an `Except.error` carrying a `PyErr`.
   * Network responses (`HttpxClient.make_request`, `py_yt.Playlist.getVideos`)
     are inputs to the embedded functions: `none` stands for "request failed /
     returned a falsy payload" (those library calls do not live in this
     repository), and `some` for a successful payload.
   * Calls into the voice engine (`src.pytgcalls.call`) are recorded as a
     trace (`List EngineCall`); the handlers' user-visible replies are the
     `Reply` type.  Message-argument extraction (`extract_argument`,
     `extract_number`, from modules outside the analysed sources) is
     abstracted as an `Option` argument already holding the parsed number;
     Python floats are idealised as rationals. -/

/-! ### Python string primitives (ASCII model) -/

/-- ASCII model of `str.lower` (Python's `re.IGNORECASE` / `str.lower` on the
ASCII URLs the backend patterns mention). -/
def lowerChar (c : Char) : Char :=
  if 'A' ≤ c ∧ c ≤ 'Z' then Char.ofNat (c.toNat + 32) else c

/-- Boolean list-prefix test. -/
def isPrefixL : List Char → List Char → Bool
  | [], _ => true
  | _ :: _, [] => false
  | a :: as, b :: bs => a = b && isPrefixL as bs

/-- Model of Python `s.split(sep)` for a one-character separator `sep`. -/
def splitOn1 (sep : Char) : List Char → List (List Char)
  | [] => [[]]
  | c :: cs =>
    if c = sep then [] :: splitOn1 sep cs
    else
      match splitOn1 sep cs with
      | [] => [[c]]
      | g :: gs => (c :: g) :: gs

/-- Model of Python `s.split(sep)` for a two-character separator `ab`
(used for `url.split("v=")`). -/
def splitOn2 (a b : Char) : List Char → List (List Char)
  | [] => [[]]
  | [c] => [[c]]
  | c :: d :: rest =>
    if c = a ∧ d = b then [] :: splitOn2 a b rest
    else
      match splitOn2 a b (d :: rest) with
      | [] => [[c]]
      | g :: gs => (c :: g) :: gs

/-- Python whitespace stripped by `int(...)` (ASCII part). -/
def pyWs (c : Char) : Bool :=
  c = ' ' || c = '\t' || c = '\n' || c = '\r'

/-- Strip leading and trailing whitespace. -/
def trimL (l : List Char) : List Char :=
  ((l.dropWhile pyWs).reverse.dropWhile pyWs).reverse

/-- Value of a non-empty all-digit character list, `none` otherwise. -/
def digitsVal (l : List Char) : Option Nat :=
  match l with
  | [] => none
  | cs =>
    if cs.all Char.isDigit then
      some (cs.foldl (fun a c => a * 10 + (c.toNat - 48)) 0)
    else none

/-- Model of Python `int(s)`: optional surrounding whitespace, optional sign,
then a non-empty digit string; `none` models the raised `ValueError`. -/
def pyInt (s : String) : Option Int :=
  match trimL s.data with
  | '-' :: rest => (digitsVal rest).map fun n => -(n : Int)
  | '+' :: rest => (digitsVal rest).map fun n => (n : Int)
  | cs => (digitsVal cs).map fun n => (n : Int)

/-! ### `_youtube.py`: the `YouTubeData` backend -/

/-- An uncaught Python exception. -/
inductive PyErr
  | indexError
  | valueError
deriving DecidableEq, Repr

/-- The colon-split of a duration string, as `_duration_to_seconds` computes
it (`duration.split(":")`). -/
def durationParts (s : String) : List String :=
  (splitOn1 ':' s.data).map String.mk

/-- `YouTubeData._duration_to_seconds`.  Empty strings and part counts other
than 2 or 3 return 0; a non-integer part makes Python's `int(...)` raise
`ValueError`, modelled as `Except.error`. -/
def durationToSeconds (duration : String) : Except PyErr Int :=
  if duration = "" then .ok 0
  else
    match durationParts duration with
    | [p0, p1, p2] =>
      match pyInt p0, pyInt p1, pyInt p2 with
      | some h, some m, some s => .ok (h * 3600 + m * 60 + s)
      | _, _, _ => .error .valueError
    | [p0, p1] =>
      match pyInt p0, pyInt p1 with
      | some m, some s => .ok (m * 60 + s)
      | _, _ => .error .valueError
    | _ => .ok 0

/-- The fields of the oembed JSON payload that `_get_youtube_url` reads,
with the `.get` defaults already applied. -/
structure Oembed where
  title : String
  authorName : String
  thumbnailUrl : String
deriving DecidableEq, Repr

/-- A `py_yt` playlist/search video entry, restricted to the fields
`_format_track` reads.  `duration = none` models a missing key (the code
substitutes `"0:00"`); `channelName = none` models a missing channel name
(the code substitutes `"Unknown"`). -/
structure VideoData where
  id : String
  title : String
  duration : Option String
  channelName : Option String
  thumbUrl : String
deriving DecidableEq, Repr

/-- The track dictionary produced by the backend (the `MusicTrack` dataclass
fields the claims are about). -/
structure MusicTrack where
  id : String
  name : String
  duration : Int
  artist : String
  cover : String
  year : Int
  platform : String
deriving DecidableEq, Repr

/-- The `PlatformTracks` dataclass: an ordered list of tracks. -/
structure PlatformTracks where
  tracks : List MusicTrack
deriving DecidableEq, Repr

/-- `YouTubeData._format_track`: builds the normalized track dict; the
duration conversion may raise, and that exception propagates (the call sites
in `_get_playlist` sit outside its `try` block). -/
def formatTrack (v : VideoData) : Except PyErr MusicTrack :=
  match durationToSeconds (v.duration.getD "0:00") with
  | .error e => .error e
  | .ok d =>
    .ok ⟨v.id, v.title, d, v.channelName.getD "Unknown", v.thumbUrl, 0, "youtube"⟩

/-- The list comprehension `[_format_track(t) for t in videos]`: the first
raised exception propagates. -/
def formatAll : List VideoData → Except PyErr (List MusicTrack)
  | [] => .ok []
  | v :: vs =>
    match formatTrack v with
    | .error e => .error e
    | .ok t =>
      match formatAll vs with
      | .error e => .error e
      | .ok ts => .ok (t :: ts)

/-- `YouTubeData._get_playlist`.  `resp = none` models the caught
`Playlist.getVideos` exceptions and a falsy payload (both yield `None`);
`resp = some vids` models a payload whose `"videos"` key holds `vids`. -/
def getPlaylistF (resp : Option (List VideoData)) :
    Except PyErr (Option (List MusicTrack)) :=
  match resp with
  | none => .ok none
  | some vids =>
    match formatAll vids with
    | .error e => .error e
    | .ok ts => .ok (some ts)

/-- `YouTubeData._get_youtube_url`.  `resp = none` models a falsy
`make_request` result.  On a payload, the code evaluates
`url.split("v=")[1]`, which raises `IndexError` when `"v="` does not occur
in the url (e.g. a `shorts/` url). -/
def getYoutubeUrl (url : String) (resp : Option Oembed) :
    Except PyErr (Option (List MusicTrack)) :=
  match resp with
  | none => .ok none
  | some d =>
    match ((splitOn2 'v' '=' url.data).map String.mk).get? 1 with
    | none => .error .indexError
    | some vid => .ok (some [⟨vid, d.title, 0, d.authorName, d.thumbnailUrl, 0, "youtube"⟩])

/-- Strip a literal prefix, or fail. -/
def stripPrefixL (p : List Char) (l : List Char) : Option (List Char) :=
  if isPrefixL p l then some (l.drop p.length) else none

/-- The `(https?://)?` part of the url regexes. -/
def afterScheme (l : List Char) : List Char :=
  match stripPrefixL "https://".data l with
  | some r => r
  | none =>
    match stripPrefixL "http://".data l with
    | some r => r
    | none => l

/-- The `(www\.)?(youtube\.com|music\.youtube\.com)/` part of the url
regexes. -/
def afterHost (l : List Char) : Option (List Char) :=
  let t := match stripPrefixL "www.".data l with
    | some r => r
    | none => l
  match stripPrefixL "youtube.com/".data t with
  | some r => some r
  | none => stripPrefixL "music.youtube.com/".data t

/-- `[\w-]+` needs at least one word character (ASCII model of `\w`);
`re.match` does not anchor the end of the string. -/
def hasWordDash : List Char → Bool
  | [] => false
  | c :: _ => c.isAlphanum || c = '_' || c = '-'

/-- `YOUTUBE_VIDEO_PATTERN.match`, for ASCII input: optional scheme,
optional `www.`, one of the two hosts, then `watch?v=` or `shorts/` followed
by at least one `[\w-]` character. -/
def matchVideo (s : String) : Bool :=
  match afterHost (afterScheme (s.data.map lowerChar)) with
  | none => false
  | some rest =>
    match stripPrefixL "watch?v=".data rest with
    | some r => hasWordDash r
    | none =>
      match stripPrefixL "shorts/".data rest with
      | some r => hasWordDash r
      | none => false

/-- `YOUTUBE_PLAYLIST_PATTERN.match`, for ASCII input. -/
def matchPlaylist (s : String) : Bool :=
  match afterHost (afterScheme (s.data.map lowerChar)) with
  | none => false
  | some rest =>
    match stripPrefixL "playlist?list=".data rest with
    | some r => hasWordDash r
    | none => false

/-- `YouTubeData.is_valid` on a string url (`""` is falsy). -/
def isValid (url : String) : Bool :=
  if url = "" then false else matchVideo url || matchPlaylist url

/-- `YouTubeData.is_valid` applied to `self.query`, which may be `None`. -/
def isValidOpt : Option String → Bool
  | none => false
  | some u => isValid u

/-- `YouTubeData._create_platform_tracks` combined with the
`if data else None` guard at its call sites: a payload carrying a
`"results"` key becomes a `PlatformTracks`. -/
def createPlatformTracks : Option (List MusicTrack) → Option PlatformTracks
  | some results => some ⟨results⟩
  | none => none

/-- `YouTubeData._fetch_data`: dispatch on the url shape.  The final branch
(`self.search()`) is unreachable from `get_info` because `is_valid` already
required one of the two patterns to match; it is modelled as no data. -/
def fetchData (url : String) (oembed : Option Oembed)
    (playlist : Option (List VideoData)) : Except PyErr (Option (List MusicTrack)) :=
  if matchVideo url then getYoutubeUrl url oembed
  else if matchPlaylist url then getPlaylistF playlist
  else .ok none

/-- `YouTubeData.get_info`: note the absence of any `try` around
`_fetch_data`, so exceptions raised there propagate to the caller. -/
def getInfo (query : Option String) (oembed : Option Oembed)
    (playlist : Option (List VideoData)) : Except PyErr (Option PlatformTracks) :=
  if !isValidOpt query then .ok none
  else
    match query with
    | none => .ok none
    | some q =>
      match fetchData q oembed playlist with
      | .error e => .error e
      | .ok d => .ok (createPlatformTracks d)

/-- `YouTubeData.__init__`: `self.query = None if not query else
query.split("&")[0] if query and "&" in query else query`. -/
def initQuery : Option String → Option String
  | none => none
  | some q =>
    if q = "" then none
    else if q.data.contains '&' then some (String.mk ((splitOn1 '&' q.data).headD []))
    else some q

/-! ### `funcs.py`: the playback command handlers -/

/-- The voice engine's internal playback status.  The handlers in `funcs.py`
have no access to it (the chat cache only records an active flag); it is
carried in the context to state claims that mention the playing/paused
distinction. -/
inductive EngineStatus
  | playing
  | paused
deriving DecidableEq, Repr

/-- A call into the voice engine (`src.pytgcalls.call`). -/
inductive EngineCall
  | seekStream (chatId : Int) (filePath : String) (seekTo : Int) (duration : Int)
  | changeVolume (chatId : Int) (vol : Int)
  | speedChange (chatId : Int) (speed : ℚ)
  | playNext (chatId : Int)
  | endStream (chatId : Int)
  | pause (chatId : Int)
  | resume (chatId : Int)
  | mute (chatId : Int)
  | unmute (chatId : Int)
deriving DecidableEq, Repr

/-- The user-visible reply a handler produces (collapsed to its kind). -/
inductive Reply
  | noSong
  | notAdmin
  | usage
  | useMute
  | volumeRange
  | seekTooSmall
  | seekPastEnd
  | emptyQueue
  | badIndex
  | success
deriving DecidableEq, Repr

/-- The per-request context a handler sees: the chat id, the chat cache's
active flag, the admin-check result, and the (handler-invisible) engine
status. -/
structure ChatCtx where
  chatId : Int
  isActive : Bool
  isAdmin : Bool
  engineStatus : EngineStatus
deriving DecidableEq, Repr

/-- A queued song, restricted to the fields the handlers read. -/
structure Song where
  name : String
  filePath : String
  duration : Int
  loop : Int
  user : String
deriving DecidableEq, Repr

/-- `is_admin_or_reply`: reject with "no song playing" when the chat cache
is not active, else reject non-admins, else pass the chat id through. -/
def isAdminOrReply (ctx : ChatCtx) : Option Reply :=
  if !ctx.isActive then some .noSong
  else if !ctx.isAdmin then some .notAdmin
  else none

/-- `handle_playback_action`: gate on `is_admin_or_reply`, then invoke the
engine action (engine exceptions are caught after the call; the call itself
is always made once the gate passes). -/
def handlePlaybackAction (ctx : ChatCtx) (action : Int → EngineCall) :
    List EngineCall × Reply :=
  match isAdminOrReply ctx with
  | some r => ([], r)
  | none => ([action ctx.chatId], .success)

/-- `pause_song`. -/
def pauseSong (ctx : ChatCtx) : List EngineCall × Reply :=
  handlePlaybackAction ctx .pause

/-- `resume`. -/
def resumeSong (ctx : ChatCtx) : List EngineCall × Reply :=
  handlePlaybackAction ctx .resume

/-- `mute_song`. -/
def muteSong (ctx : ChatCtx) : List EngineCall × Reply :=
  handlePlaybackAction ctx .mute

/-- `unmute_song`. -/
def unmuteSong (ctx : ChatCtx) : List EngineCall × Reply :=
  handlePlaybackAction ctx .unmute

/-- `stop_song`. -/
def stopSong (ctx : ChatCtx) : List EngineCall × Reply :=
  match isAdminOrReply ctx with
  | some r => ([], r)
  | none => ([.endStream ctx.chatId], .success)

/-- `skip_song` (the deleted user message is not an engine call). -/
def skipSong (ctx : ChatCtx) : List EngineCall × Reply :=
  match isAdminOrReply ctx with
  | some r => ([], r)
  | none => ([.playNext ctx.chatId], .success)

/-- `volume`: gate on `is_admin_or_reply`, then the argument checks in
source order (`0` is redirected to `/mute`, then the `1 <= v <= 200` bound),
then `call.change_volume`. -/
def volumeCmd (ctx : ChatCtx) (args : Option Int) : List EngineCall × Reply :=
  match isAdminOrReply ctx with
  | some r => ([], r)
  | none =>
    match args with
    | none => ([], .usage)
    | some v =>
      if v = 0 then ([], .useMute)
      else if ¬(1 ≤ v ∧ v ≤ 200) then ([], .volumeRange)
      else ([.changeVolume ctx.chatId v], .success)

/-- `seek_song`: argument present, `seek_time < 20` rejected, current song
required, then the computed target `played_time + seek_time` is rejected at
or past the duration, else exactly one `call.seek_stream`. -/
def seekSong (chatId : Int) (args : Option Int) (currSong : Option Song)
    (playedTime : Int) : List EngineCall × Reply :=
  match args with
  | none => ([], .usage)
  | some seekTime =>
    if seekTime < 20 then ([], .seekTooSmall)
    else
      match currSong with
      | none => ([], .noSong)
      | some song =>
        if playedTime + seekTime ≥ song.duration then ([], .seekPastEnd)
        else
          ([.seekStream chatId song.filePath (playedTime + seekTime) song.duration],
           .success)

/-- `remove_song`: admin, active chat and an argument required, then the
empty-queue and `track_num <= 0 or track_num > len(queue)` checks; the
performed removal is the `chat_cache.remove_track` call, recorded as
`some index`. -/
def removeSong (ctx : ChatCtx) (args : Option Int) (queue : List Song) :
    Option Int × Reply :=
  if !ctx.isAdmin then (none, .notAdmin)
  else if !ctx.isActive then (none, .noSong)
  else
    match args with
    | none => (none, .usage)
    | some i =>
      if queue = [] then (none, .emptyQueue)
      else if i ≤ 0 ∨ i > (queue.length : Int) then (none, .badIndex)
      else (some i, .success)

/-- Python `round` to the nearest integer, ties to even (the behaviour of
`round(x, 2)` scaled by 100, idealised over the rationals). -/
def roundHalfEvenQ (x : ℚ) : Int :=
  let f := ⌊x⌋
  let r := x - f
  if r < 1 / 2 then f
  else if 1 / 2 < r then f + 1
  else if f % 2 = 0 then f else f + 1

/-- `round(float(args), 2)`, idealised over the rationals. -/
def pyRound2 (q : ℚ) : ℚ := (roundHalfEvenQ (q * 100) : ℚ) / 100

/-- `change_speed`: argument, admin and active checks in source order, then
`call.speed_change` with the rounded factor — the handler contains no
bounds check against the `[0.5, 4.0]` range its own usage message states. -/
def changeSpeed (ctx : ChatCtx) (args : Option ℚ) : List EngineCall × Reply :=
  match args with
  | none => ([], .usage)
  | some x =>
    if !ctx.isAdmin then ([], .notAdmin)
    else if !ctx.isActive then ([], .noSong)
    else ([.speedChange ctx.chatId (pyRound2 x)], .success)

/-! ### Helper lemmas -/

theorem splitOn1_ne_nil (sep : Char) (l : List Char) : splitOn1 sep l ≠ [] := by
  induction l with
  | nil => simp [splitOn1]
  | cons c cs ih =>
    by_cases hc : c = sep
    · simp [splitOn1, hc]
    · simp only [splitOn1, if_neg hc]
      rcases h : splitOn1 sep cs with _ | ⟨g, gs⟩
      · exact absurd h ih
      · simp

theorem splitOn1_headD (sep : Char) (l : List Char) :
    (splitOn1 sep l).headD [] = l.takeWhile (fun c => c != sep) := by
  induction l with
  | nil => rfl
  | cons c cs ih =>
    by_cases hc : c = sep
    · subst hc
      simp [splitOn1, List.takeWhile_cons]
    · simp only [splitOn1, if_neg hc]
      rcases h : splitOn1 sep cs with _ | ⟨g, gs⟩
      · exact absurd h (splitOn1_ne_nil sep cs)
      · rw [h] at ih
        simp only [List.headD] at ih
        simp [List.takeWhile_cons, bne_iff_ne, hc, ← ih]

theorem isAdminOrReply_cases (ctx : ChatCtx) :
    isAdminOrReply ctx = none ∨ isAdminOrReply ctx = some .noSong ∨
      isAdminOrReply ctx = some .notAdmin := by
  unfold isAdminOrReply
  split_ifs <;> simp

theorem formatTrack_fields (v : VideoData) (t : MusicTrack)
    (h : formatTrack v = .ok t) :
    t.id = v.id ∧ t.name = v.title ∧ t.year = 0 ∧ t.platform = "youtube" := by
  simp only [formatTrack] at h
  rcases hd : durationToSeconds (v.duration.getD "0:00") with e | d
  · rw [hd] at h
    simp at h
  · rw [hd] at h
    simp only [Except.ok.injEq] at h
    subst h
    exact ⟨rfl, rfl, rfl, rfl⟩

theorem formatAll_forall_two (vids : List VideoData) (ts : List MusicTrack)
    (h : formatAll vids = .ok ts) :
    List.Forall₂ (fun v t => formatTrack v = .ok t) vids ts := by
  induction vids generalizing ts with
  | nil =>
    simp only [formatAll, Except.ok.injEq] at h
    subst h
    exact List.Forall₂.nil
  | cons v vs ih =>
    simp only [formatAll] at h
    rcases hv : formatTrack v with e | t
    · rw [hv] at h
      simp at h
    · rw [hv] at h
      rcases hr : formatAll vs with e | ts'
      · rw [hr] at h
        simp at h
      · rw [hr] at h
        simp only [Except.ok.injEq] at h
        subst h
        exact List.Forall₂.cons hv (ih ts' hr)

theorem formatAll_ok_of_parse (vids : List VideoData)
    (h : ∀ v ∈ vids, ∃ d, durationToSeconds (v.duration.getD "0:00") = .ok d) :
    ∃ ts, formatAll vids = .ok ts := by
  induction vids with
  | nil => exact ⟨[], rfl⟩
  | cons v vs ih =>
    obtain ⟨d, hd⟩ := h v (by simp)
    obtain ⟨ts, hts⟩ := ih fun w hw => h w (by simp [hw])
    have hft : formatTrack v =
        .ok ⟨v.id, v.title, d, v.channelName.getD "Unknown", v.thumbUrl, 0, "youtube"⟩ := by
      simp [formatTrack, hd]
    refine ⟨⟨v.id, v.title, d, v.channelName.getD "Unknown", v.thumbUrl, 0, "youtube"⟩ :: ts, ?_⟩
    simp [formatAll, hft, hts]

/-! ### Claim theorems -/

/-- Claim C1 (code bug): `get_info` does NOT convert every parsing failure to
`None`.  For the shorts url `https://youtube.com/shorts/abc` — accepted by
`is_valid` (second conjunct) — a successful oembed response makes
`_get_youtube_url` evaluate `url.split("v=")[1]`, raising an uncaught
`IndexError` past the backend boundary. -/
theorem get_info_shorts_raises :
    getInfo (some "https://youtube.com/shorts/abc")
        (some ⟨"Title", "Author", "Thumb"⟩) none = .error .indexError ∧
    isValidOpt (some "https://youtube.com/shorts/abc") = true :=
  ⟨rfl, rfl⟩

/-- Claim C3 counterexample: the malformed duration string `"a:b"` does not
normalize to `0` — `int("a")` raises `ValueError`, which propagates. -/
theorem duration_malformed_raises :
    durationToSeconds "a:b" = .error .valueError ∧
    ¬ durationToSeconds "a:b" = .ok 0 :=
  ⟨rfl, fun h => Except.noConfusion h⟩

/-- Claim C3 (amended): `_duration_to_seconds` returns `H*3600 + MM*60 + SS`
for a three-field `H:MM:SS` string with integer fields, `MM*60 + SS` for a
two-field `MM:SS` string with integer fields, and `0` for the empty string
and for any string whose colon-split has a number of fields other than 2 or
3; a 2- or 3-field string with a non-integer field raises `ValueError`
instead of returning 0. -/
theorem duration_to_seconds_spec :
    (∀ s p0 p1 p2 h m sec, durationParts s = [p0, p1, p2] →
      pyInt p0 = some h → pyInt p1 = some m → pyInt p2 = some sec →
      durationToSeconds s = .ok (h * 3600 + m * 60 + sec)) ∧
    (∀ s p0 p1 m sec, durationParts s = [p0, p1] →
      pyInt p0 = some m → pyInt p1 = some sec →
      durationToSeconds s = .ok (m * 60 + sec)) ∧
    durationToSeconds "" = .ok 0 ∧
    (∀ s, (durationParts s).length ≠ 2 → (durationParts s).length ≠ 3 →
      durationToSeconds s = .ok 0) := by
  refine ⟨?_, ?_, rfl, ?_⟩
  · intro s p0 p1 p2 h m sec hsplit h0 h1 h2
    have hne : s ≠ "" := by
      intro he
      subst he
      simp [durationParts, splitOn1] at hsplit
    simp [durationToSeconds, hne, hsplit, h0, h1, h2]
  · intro s p0 p1 m sec hsplit h0 h1
    have hne : s ≠ "" := by
      intro he
      subst he
      simp [durationParts, splitOn1] at hsplit
    simp [durationToSeconds, hne, hsplit, h0, h1]
  · intro s hl2 hl3
    by_cases hne : s = ""
    · subst hne
      rfl
    · rcases hp : durationParts s with _ | ⟨a, _ | ⟨b, _ | ⟨c, _ | ⟨d4, t4⟩⟩⟩⟩
      · simp [durationToSeconds, hne, hp]
      · simp [durationToSeconds, hne, hp]
      · exact absurd (by rw [hp]; rfl) hl2
      · exact absurd (by rw [hp]; rfl) hl3
      · simp [durationToSeconds, hne, hp]

/-- Claim C3 witness: concrete instances of the amended statement. -/
theorem duration_to_seconds_spec_witness :
    durationToSeconds "1:02:03" = .ok 3723 ∧ durationToSeconds "12:34" = .ok 754 := by
  have h3 := duration_to_seconds_spec.1 "1:02:03" "1" "02" "03" 1 2 3 (by rfl)
    (by rfl) (by rfl) (by rfl)
  have h2 := duration_to_seconds_spec.2.1 "12:34" "12" "34" 12 34 (by rfl)
    (by rfl) (by rfl)
  refine ⟨?_, ?_⟩
  · rw [h3]
    norm_num
  · rw [h2]
    norm_num

/-- Claim C9: the constructor stores `None` for an absent or empty query,
the substring before the first `&` when the query contains one, and the
query unchanged otherwise. -/
theorem init_query_spec (q : String) :
    initQuery none = none ∧
    initQuery (some "") = none ∧
    (q.data.contains '&' = true →
      initQuery (some q) = some (String.mk (q.data.takeWhile (fun c => c != '&')))) ∧
    (q ≠ "" → q.data.contains '&' = false → initQuery (some q) = some q) := by
  refine ⟨rfl, rfl, ?_, ?_⟩
  · intro hc
    have hne : q ≠ "" := by
      intro he
      subst he
      simp [List.contains] at hc
    simp only [initQuery]
    rw [if_neg hne, if_pos hc, splitOn1_headD]
  · intro hne hc
    have hcn : ¬ q.data.contains '&' = true := by
      rw [hc]
      exact Bool.false_ne_true
    simp only [initQuery]
    rw [if_neg hne, if_neg hcn]

/-- Claim C9 witness: a query with an `&` is truncated at the first `&`. -/
theorem init_query_spec_witness :
    ("abc&x=1".data.contains '&' = true) ∧ initQuery (some "abc&x=1") = some "abc" := by
  have h := (init_query_spec "abc&x=1").2.2.1 (by decide)
  exact ⟨by decide, h.trans (by decide)⟩

/-- Claim C2: with a current song of duration `D` and engine elapsed time
`E`, a seek with delta `d` is rejected with no engine seek call when `d < 20`
or `E + d ≥ D`, and otherwise issues exactly one `seek_stream` call with
absolute target `E + d` and total duration `D`. -/
theorem seek_song_spec (cid : Int) (song : Song) (e d : Int) :
    ((d < 20 ∨ e + d ≥ song.duration) →
      (seekSong cid (some d) (some song) e).1 = [] ∧
      (seekSong cid (some d) (some song) e).2 ≠ .success) ∧
    (20 ≤ d → e + d < song.duration →
      seekSong cid (some d) (some song) e =
        ([.seekStream cid song.filePath (e + d) song.duration], .success)) := by
  constructor
  · intro h
    rcases h with h | h
    · simp [seekSong, h]
    · by_cases hd : d < 20
      · simp [seekSong, hd]
      · simp [seekSong, hd, h]
  · intro h20 hlt
    have hd : ¬ d < 20 := not_lt.mpr h20
    simp [seekSong, hd, not_le.mpr hlt]

/-- Claim C2 witness: seeking by 30 seconds at elapsed time 10 in a
180-second song issues one engine seek call to 40 seconds. -/
theorem seek_song_spec_witness :
    seekSong 7 (some 30) (some ⟨"n", "fp", 180, 0, "u"⟩) 10 =
      ([.seekStream 7 "fp" 40 180], .success) := by
  have h := (seek_song_spec 7 ⟨"n", "fp", 180, 0, "u"⟩ 10 30).2 (by norm_num) (by norm_num)
  simpa using h

/-- Claim C4: volume 0 always fails with no engine call whatever the chat
state, any volume outside `[1, 200]` produces no engine call, and every
`change_volume` engine call the handler makes carries a volume in
`[1, 200]`. -/
theorem volume_spec (ctx : ChatCtx) :
    ((volumeCmd ctx (some 0)).1 = [] ∧ (volumeCmd ctx (some 0)).2 ≠ .success) ∧
    (∀ v : Int, (v < 1 ∨ 200 < v) → (volumeCmd ctx (some v)).1 = []) ∧
    (∀ args c, c ∈ (volumeCmd ctx args).1 →
      ∃ v, args = some v ∧ 1 ≤ v ∧ v ≤ 200 ∧ c = .changeVolume ctx.chatId v) := by
  refine ⟨?_, ?_, ?_⟩
  · rcases isAdminOrReply_cases ctx with h | h | h <;> simp [volumeCmd, h]
  · intro v hv
    rcases isAdminOrReply_cases ctx with h | h | h
    · by_cases hv0 : v = 0
      · simp [volumeCmd, h, hv0]
      · have hb : ¬ (1 ≤ v ∧ v ≤ 200) := by omega
        simp [volumeCmd, h, hv0, hb]
    · simp [volumeCmd, h]
    · simp [volumeCmd, h]
  · intro args c hc
    rcases isAdminOrReply_cases ctx with h | h | h
    · cases args with
      | none => simp [volumeCmd, h] at hc
      | some v =>
        by_cases hv0 : v = 0
        · simp [volumeCmd, h, hv0] at hc
        · by_cases hb : 1 ≤ v ∧ v ≤ 200
          · simp [volumeCmd, h, hv0, hb] at hc
            exact ⟨v, rfl, hb.1, hb.2, hc⟩
          · simp [volumeCmd, h, hv0, hb] at hc
    · simp [volumeCmd, h] at hc
    · simp [volumeCmd, h] at hc

/-- Claim C4 witness: in an active chat with an admin requester, volume 0 is
rejected without an engine call and volume 300 produces no engine call. -/
theorem volume_spec_witness :
    (volumeCmd ⟨5, true, true, .playing⟩ (some 0)).1 = [] ∧
    (volumeCmd ⟨5, true, true, .playing⟩ (some 0)).2 ≠ .success ∧
    (volumeCmd ⟨5, true, true, .playing⟩ (some 300)).1 = [] := by
  have h := volume_spec ⟨5, true, true, .playing⟩
  exact ⟨h.1.1, h.1.2, h.2.1 300 (by norm_num)⟩

/-- Claim C5 (code bug): `change_speed` performs no bounds check at all —
a requested factor of 100, far outside the `[0.5, 4.0]` range its own usage
message states, still reaches the engine's `speed_change` primitive. -/
theorem change_speed_no_bounds_check :
    ((4 : ℚ) < 100) ∧
    changeSpeed ⟨1, true, true, .playing⟩ (some 100) =
      ([.speedChange 1 100], .success) := by
  have h : pyRound2 100 = 100 := by norm_num [pyRound2, roundHalfEvenQ]
  refine ⟨by norm_num, ?_⟩
  simp [changeSpeed, h]

/-- Claim C6: `remove_song` performs no removal when the 1-based index is
`≤ 0` or exceeds the queue length, performs exactly the requested removal
when `1 ≤ i ≤ len(queue)` (for an admin in an active chat), and every
performed removal had an in-bounds index. -/
theorem remove_song_spec (ctx : ChatCtx) (args : Option Int) (queue : List Song) :
    (∀ i : Int, args = some i → (i ≤ 0 ∨ (queue.length : Int) < i) →
      (removeSong ctx args queue).1 = none) ∧
    (∀ i : Int, args = some i → 1 ≤ i → i ≤ (queue.length : Int) →
      ctx.isAdmin = true → ctx.isActive = true →
      removeSong ctx args queue = (some i, .success)) ∧
    (∀ i : Int, (removeSong ctx args queue).1 = some i →
      args = some i ∧ 1 ≤ i ∧ i ≤ (queue.length : Int)) := by
  refine ⟨?_, ?_, ?_⟩
  · intro i ha hi
    subst ha
    cases hA : ctx.isAdmin with
    | false => simp [removeSong, hA]
    | true =>
      cases hAc : ctx.isActive with
      | false => simp [removeSong, hA, hAc]
      | true =>
        by_cases hq : queue = []
        · simp [removeSong, hA, hAc, hq]
        · have hbad : i ≤ 0 ∨ i > (queue.length : Int) := hi
          simp [removeSong, hA, hAc, hq, hbad]
  · intro i ha h1 h2 hA hAc
    subst ha
    have hq : queue ≠ [] := by
      intro he
      subst he
      simp at h2
      omega
    have hok : ¬ (i ≤ 0 ∨ i > (queue.length : Int)) := by
      push_neg
      omega
    simp [removeSong, hA, hAc, hq, hok]
  · intro i hres
    cases hA : ctx.isAdmin with
    | false => simp [removeSong, hA] at hres
    | true =>
      cases hAc : ctx.isActive with
      | false => simp [removeSong, hA, hAc] at hres
      | true =>
        cases args with
        | none => simp [removeSong, hA, hAc] at hres
        | some j =>
          by_cases hq : queue = []
          · simp [removeSong, hA, hAc, hq] at hres
          · by_cases hb : j ≤ 0 ∨ j > (queue.length : Int)
            · simp [removeSong, hA, hAc, hq, hb] at hres
            · simp [removeSong, hA, hAc, hq, hb] at hres
              push_neg at hb
              subst hres
              exact ⟨rfl, by omega, by omega⟩

/-- Claim C6 witness: removing index 2 from a 3-element queue is performed;
index 4 is not. -/
theorem remove_song_spec_witness :
    removeSong ⟨3, true, true, .playing⟩ (some 2)
        [⟨"a", "f1", 10, 0, "u"⟩, ⟨"b", "f2", 20, 0, "u"⟩, ⟨"c", "f3", 30, 0, "u"⟩] =
      (some 2, .success) ∧
    (removeSong ⟨3, true, true, .playing⟩ (some 4)
        [⟨"a", "f1", 10, 0, "u"⟩, ⟨"b", "f2", 20, 0, "u"⟩, ⟨"c", "f3", 30, 0, "u"⟩]).1 =
      none := by
  constructor
  · exact (remove_song_spec ⟨3, true, true, .playing⟩ (some 2) _).2.1 2 rfl
      (by norm_num) (by norm_num) rfl rfl
  · exact (remove_song_spec ⟨3, true, true, .playing⟩ (some 4) _).1 4 rfl
      (by norm_num)

/-- Claim C8 counterexample: a pause requested while the engine is already
paused (and a resume while it is playing) still makes the engine call — the
handler layer checks only the chat cache's active flag, never the
playing/paused distinction. -/
theorem pause_in_paused_state_calls_engine :
    pauseSong ⟨1, true, true, .paused⟩ = ([.pause 1], .success) ∧
    resumeSong ⟨1, true, true, .playing⟩ = ([.resume 1], .success) :=
  ⟨rfl, rfl⟩

/-- Claim C8 (amended): `pause`/`resume` are rejected with no engine call
exactly when the chat cache is not active or the requester is not an admin;
whenever the chat is active and the requester is an admin the engine's
pause/resume primitive is invoked unconditionally, regardless of the
engine's playing/paused status (an inactive chat always gets the
"no song playing" rejection). -/
theorem pause_resume_spec (ctx : ChatCtx) :
    ((pauseSong ctx).1 ≠ [] ↔ ctx.isActive = true ∧ ctx.isAdmin = true) ∧
    ((resumeSong ctx).1 ≠ [] ↔ ctx.isActive = true ∧ ctx.isAdmin = true) ∧
    (ctx.isActive = true → ctx.isAdmin = true →
      pauseSong ctx = ([.pause ctx.chatId], .success) ∧
      resumeSong ctx = ([.resume ctx.chatId], .success)) ∧
    (ctx.isActive = false →
      pauseSong ctx = ([], .noSong) ∧ resumeSong ctx = ([], .noSong)) := by
  obtain ⟨cid, act, adm, st⟩ := ctx
  cases act <;> cases adm <;>
    simp [pauseSong, resumeSong, handlePlaybackAction, isAdminOrReply]

/-- Claim C8 witness: with an active chat and an admin requester, pause and
resume reach the engine. -/
theorem pause_resume_spec_witness :
    pauseSong ⟨2, true, true, .playing⟩ = ([.pause 2], .success) ∧
    resumeSong ⟨2, true, true, .playing⟩ = ([.resume 2], .success) :=
  (pause_resume_spec ⟨2, true, true, .playing⟩).2.2.1 rfl rfl

/-- Claim C10: when the chat cache is not active, each of stop, pause,
resume, mute, unmute, volume and skip replies with the "no song playing"
rejection and makes no voice-engine call — and the reply is the activity
rejection even for a non-admin requester (`adm` is arbitrary), showing the
activity check runs before the admin check. -/
theorem inactive_commands_rejected (cid : Int) (adm : Bool) (st : EngineStatus)
    (vArgs : Option Int) :
    stopSong ⟨cid, false, adm, st⟩ = ([], .noSong) ∧
    pauseSong ⟨cid, false, adm, st⟩ = ([], .noSong) ∧
    resumeSong ⟨cid, false, adm, st⟩ = ([], .noSong) ∧
    muteSong ⟨cid, false, adm, st⟩ = ([], .noSong) ∧
    unmuteSong ⟨cid, false, adm, st⟩ = ([], .noSong) ∧
    volumeCmd ⟨cid, false, adm, st⟩ vArgs = ([], .noSong) ∧
    skipSong ⟨cid, false, adm, st⟩ = ([], .noSong) := by
  simp [stopSong, pauseSong, resumeSong, muteSong, unmuteSong, volumeCmd, skipSong,
    handlePlaybackAction, isAdminOrReply]

/-- Claim C7: resolving a playlist url returns the member tracks in exactly
the source order (each returned track is the formatting of the video at the
same position), every returned track has `year = 0` and `platform`
`"youtube"`, and when every member's duration string parses the resolution
succeeds. -/
theorem playlist_resolution_spec (q : String) (oem : Option Oembed)
    (vids : List VideoData) (hp : matchPlaylist q = true) (hv : matchVideo q = false) :
    (∀ res, getInfo (some q) oem (some vids) = .ok (some res) →
      List.Forall₂ (fun v t => formatTrack v = .ok t ∧ t.id = v.id ∧
        t.name = v.title ∧ t.year = 0 ∧ t.platform = "youtube") vids res.tracks) ∧
    ((∀ v ∈ vids, ∃ d, durationToSeconds (v.duration.getD "0:00") = .ok d) →
      ∃ res, getInfo (some q) oem (some vids) = .ok (some res)) := by
  have hq : q ≠ "" := by
    intro he
    subst he
    exact absurd hp (by decide)
  have hvalid : isValidOpt (some q) = true := by
    simp [isValidOpt, isValid, hq, hv, hp]
  have hfetch : fetchData q oem (some vids) = getPlaylistF (some vids) := by
    simp [fetchData, hv, hp]
  constructor
  · intro res hres
    simp only [getInfo, hvalid, Bool.not_true, Bool.false_eq_true, if_false] at hres
    rw [hfetch] at hres
    simp only [getPlaylistF] at hres
    rcases hfa : formatAll vids with e | ts
    · rw [hfa] at hres
      simp at hres
    · rw [hfa] at hres
      simp only [createPlatformTracks, Except.ok.injEq, Option.some.injEq] at hres
      subst hres
      exact (formatAll_forall_two vids ts hfa).imp fun v t h =>
        ⟨h, (formatTrack_fields v t h).1, (formatTrack_fields v t h).2.1,
          (formatTrack_fields v t h).2.2.1, (formatTrack_fields v t h).2.2.2⟩
  · intro hparse
    obtain ⟨ts, hts⟩ := formatAll_ok_of_parse vids hparse
    refine ⟨⟨ts⟩, ?_⟩
    simp only [getInfo, hvalid, Bool.not_true, Bool.false_eq_true, if_false]
    rw [hfetch]
    simp [getPlaylistF, hts, createPlatformTracks]

/-- Claim C7 witness: a concrete two-video playlist resolves, in order. -/
theorem playlist_resolution_spec_witness :
    ∃ res, getInfo (some "https://youtube.com/playlist?list=PL1") none
      (some [⟨"id1", "Song One", some "3:45", some "Chan", "cv1"⟩,
             ⟨"id2", "Song Two", some "0:10", none, "cv2"⟩]) = .ok (some res) :=
  (playlist_resolution_spec "https://youtube.com/playlist?list=PL1" none
      [⟨"id1", "Song One", some "3:45", some "Chan", "cv1"⟩,
       ⟨"id2", "Song Two", some "0:10", none, "cv2"⟩]
      (by decide) (by decide)).2
    (by
      intro v hv
      simp only [List.mem_cons, List.mem_singleton] at hv
      rcases hv with h | h | h
      · subst h
        exact ⟨225, rfl⟩
      · subst h
        exact ⟨10, rfl⟩
      · cases h)
